import Mathlib

/-!
Verification of the Cocos2d texture-atlas unpacker core
(`game_toolbox/tools/atlas_unpacker`): the CCZ container decompressor
(`_ccz.py`), the plist rect/point scanners (`_plist.py`), the PVR texture
describe/decode helpers (`_pvr.py`) and the extraction orchestrator
(`logic.py`).

Bytes are modelled as `List Nat`; Python exceptions are modelled by the
`PyError` error type of an `Except` result.  External compression codecs
(zlib / bz2 / gzip from the Python standard library) are abstracted as
function parameters.
-/

/-- Python exception kinds observable in the modelled code paths.
`toolError` models the repository's `ToolError` (the spec's `FormatError`);
`valueError` models a `ValueError` escaping `float()`; `codecError` models
a zlib/bz2/gzip internal decompression failure; `structError` models
`struct.error` raised by an out-of-range `struct.unpack_from`. -/
inductive PyError where
  | toolError (msg : String)
  | valueError
  | codecError
  | structError
deriving DecidableEq

deriving instance DecidableEq for Except

-- ── CCZ container (`_ccz.py`) ────────────────────────────────────────────

/-- The 4-byte CCZ magic tag `b"CCZ!"`. -/
def cczMagic : List Nat := [67, 67, 90, 33]

/-- Error message of `decompress_ccz` for inputs shorter than the header. -/
def cczTooShortMsg (n : Nat) : String :=
  "Data too short to be a CCZ file (" ++ toString n ++ " bytes)"

/-- Error message of `decompress_ccz` for a wrong magic tag. -/
def cczBadMagicMsg (tag : List Nat) : String :=
  "Not a CCZ file — magic bytes: " ++ toString tag

/-- Error message of `decompress_ccz` for an unknown compression code. -/
def cczUnknownMsg (c : Nat) : String :=
  "Unknown CCZ compression type: " ++ toString c

/-- Lift an abstract codec result into the `PyError` world: a codec
failure surfaces as the library's own exception, not as a `ToolError`. -/
def liftCodec : Except Unit (List Nat) → Except PyError (List Nat)
  | .ok r => .ok r
  | .error _ => .error .codecError

/-- The big-endian 16-bit compression-method field at byte offset 4,
as read by `struct.unpack_from(">H", data, 4)`. -/
def ccz_comp_type (data : List Nat) : Nat :=
  data.getD 4 0 * 256 + data.getD 5 0

/-- `decompress_ccz` from `_ccz.py`, with the three standard-library
decompressors (`zlib.decompress`, `bz2.decompress`, gzip read) passed in
as abstract codec functions. -/
def decompress_ccz (zlibD bz2D gzipD : List Nat → Except Unit (List Nat))
    (data : List Nat) : Except PyError (List Nat) :=
  if data.length < 16 then .error (.toolError (cczTooShortMsg data.length))
  else if data.take 4 ≠ cczMagic then
    .error (.toolError (cczBadMagicMsg (data.take 4)))
  else
    let comp_type := ccz_comp_type data
    let payload := data.drop 16
    if comp_type = 0 then liftCodec (zlibD payload)
    else if comp_type = 1 then liftCodec (bz2D payload)
    else if comp_type = 2 then liftCodec (gzipD payload)
    else if comp_type = 3 then .ok payload
    else .error (.toolError (cczUnknownMsg comp_type))

/-- `is_ccz` from `_ccz.py`: `data[:4] == b"CCZ!"`.  Python slicing never
raises, so the source function is total over all byte strings. -/
def is_ccz (data : List Nat) : Bool :=
  data.take 4 == cczMagic

/-- A well-formed CCZ container: magic, big-endian method code, then the
10 remaining header bytes (version, reserved, declared length), then the
compressed body. -/
def wrap_ccz (method : Nat) (rest : List Nat) (body : List Nat) : List Nat :=
  cczMagic ++ [method / 256 % 256, method % 256] ++ rest ++ body

-- ── Plist rect/point scanners (`_plist.py`) ──────────────────────────────

/-- Character class of the permissive scanner regex `[-\d.]+`. -/
def isNumChar (c : Char) : Bool :=
  c = '-' || c = '.' || c.isDigit

/-- Accumulating pass of `re.findall(r"[-\d.]+", s)`: split a character
list into the maximal runs of scanner characters.  `cur` is the current
run, reversed; `acc` is the finished runs, reversed. -/
def findallGo (cur : List Char) (acc : List (List Char)) :
    List Char → List (List Char)
  | [] => (if cur.isEmpty then acc else cur.reverse :: acc).reverse
  | c :: cs =>
    if isNumChar c then findallGo (c :: cur) acc cs
    else findallGo [] (if cur.isEmpty then acc else cur.reverse :: acc) cs

/-- `re.findall(r"[-\d.]+", s)`: every maximal run of digits, dots and
minus signs, in order. -/
def findallNum (s : List Char) : List (List Char) :=
  findallGo [] [] s

/-- Whether Python `float(token)` succeeds on a token drawn from the
scanner's character class: an optional leading minus, then at least one
digit, only digits and dots, and at most one dot. -/
def floatable (t : List Char) : Bool :=
  let body := match t with
    | '-' :: rest => rest
    | _ => t
  body.any Char.isDigit && body.all (fun c => c.isDigit || c = '.')
    && body.count '.' ≤ 1

/-- Decimal digits to a natural number, most significant first. -/
def natOfDigits (ds : List Char) : Nat :=
  ds.foldl (fun n c => 10 * n + (c.toNat - 48)) 0

/-- `int(float(token))` for a `floatable` token: truncation toward zero,
i.e. the signed value of the digits before the dot.  Exact for the
integer/decimal tokens of atlas descriptors (the IEEE-754 rounding of
`float` only diverges beyond 15+ significant digits). -/
def truncValue (t : List Char) : Int :=
  match t with
  | '-' :: rest => -(natOfDigits (rest.takeWhile Char.isDigit) : Int)
  | _ => (natOfDigits (t.takeWhile Char.isDigit) : Int)

/-- Error message of `_parse_rect`. -/
def rectErrMsg (s : String) : String :=
  "Cannot parse rect string: " ++ s

/-- Error message of `_parse_point`. -/
def pointErrMsg (s : String) : String :=
  "Cannot parse point string: " ++ s

/-- `_parse_rect` from `_plist.py`: scan every numeric token, convert each
with `float` (a malformed token raises `ValueError`), and require exactly
four tokens, truncating each to an integer. -/
def parse_rect (s : String) : Except PyError (Int × Int × Int × Int) :=
  let toks := findallNum s.data
  if toks.all floatable then
    match toks with
    | [a, b, c, d] => .ok (truncValue a, truncValue b, truncValue c, truncValue d)
    | _ => .error (.toolError (rectErrMsg s))
  else .error .valueError

/-- `_parse_point` from `_plist.py`: same scanner, exactly two tokens. -/
def parse_point (s : String) : Except PyError (Int × Int) :=
  let toks := findallNum s.data
  if toks.all floatable then
    match toks with
    | [a, b] => .ok (truncValue a, truncValue b)
    | _ => .error (.toolError (pointErrMsg s))
  else .error .valueError

/-- Whether a result models a raised `ToolError` (i.e. the spec's
`FormatError`), as opposed to success or any other exception kind. -/
def isToolErrorRes {α : Type} : Except PyError α → Bool
  | .error (.toolError _) => true
  | _ => false

/-- `AtlasSpriteFrame` from `_plist.py`. -/
structure AtlasSpriteFrame where
  name : String
  x : Int
  y : Int
  w : Int
  h : Int
  rotated : Bool
  source_w : Int
  source_h : Int
  offset_x : Int
  offset_y : Int
deriving DecidableEq

/-- `AtlasSpriteFrame.natural_w`: width in the unrotated orientation. -/
def AtlasSpriteFrame.natural_w (f : AtlasSpriteFrame) : Int :=
  if f.rotated then f.h else f.w

/-- `AtlasSpriteFrame.natural_h`: height in the unrotated orientation. -/
def AtlasSpriteFrame.natural_h (f : AtlasSpriteFrame) : Int :=
  if f.rotated then f.w else f.h

-- ── PVR textures (`_pvr.py`) ─────────────────────────────────────────────

/-- `0x21525650`, the PVRv2 tag stored at byte offset 44. -/
def pvr2Tag : Nat := 0x21525650

/-- `0x03525650`, the PVRv3 magic stored at byte offset 0. -/
def pvr3Magic : Nat := 0x03525650

/-- Little-endian 32-bit word at byte offset `off`. -/
def u32leAt (data : List Nat) (off : Nat) : Nat :=
  data.getD off 0 + data.getD (off + 1) 0 * 256
    + data.getD (off + 2) 0 * 65536 + data.getD (off + 3) 0 * 16777216

/-- Little-endian 16-bit word at byte offset `i`. -/
def le16At (raw : List Nat) (i : Nat) : Nat :=
  raw.getD i 0 + raw.getD (i + 1) 0 * 256

/-- Lowercase `0x`-prefixed hex rendering, as Python's `f"{n:#x}"`. -/
def natToHex (n : Nat) : String :=
  "0x" ++ String.mk (Nat.toDigits 16 n)

/-- The `format_name` string computed by `describe_pvr` for a PVRv2
pixel-format code: the PIL mode from the `_PVR2_FMT` table, with the empty
mode of the PVRTC entries replaced by `"?"`, and an `unknown(...)` label
for codes outside the table. -/
def pvr2FmtName (fmt : Nat) : String :=
  match fmt with
  | 0x10 => "RGBA"
  | 0x11 => "RGBA"
  | 0x12 => "RGBA"
  | 0x13 => "RGB"
  | 0x14 => "RGB"
  | 0x15 => "RGB"
  | 0x16 => "L"
  | 0x17 => "LA"
  | 0x18 => "?"
  | 0x19 => "?"
  | 0x1A => "RGBA"
  | 0x1B => "L"
  | _ => "unknown(" ++ natToHex fmt ++ ")"

/-- The metadata value returned by `describe_pvr`. -/
inductive PvrInfo where
  | v2 (width height fmt : Nat) (formatName : String) (bpp : Nat)
  | v3 (width height pfLo pfHi : Nat)
  | unknown
deriving DecidableEq

/-- `describe_pvr` from `_pvr.py`.  Its first action is
`struct.unpack_from("<I", data, 44)`, which raises `struct.error` when the
buffer holds fewer than 48 bytes; every later read needs at most 32 bytes
and therefore cannot fail once that read succeeded. -/
def describe_pvr (data : List Nat) : Except PyError PvrInfo :=
  if data.length < 48 then .error .structError
  else
    let tag_v2 := u32leAt data 44
    if tag_v2 = pvr2Tag then
      let height := u32leAt data 4
      let width := u32leAt data 8
      let flags := u32leAt data 16
      let bpp := u32leAt data 24
      let fmt := flags % 256
      .ok (.v2 width height fmt (pvr2FmtName fmt) bpp)
    else
      let magic_v3 := u32leAt data 0
      if magic_v3 = pvr3Magic then
        .ok (.v3 (u32leAt data 28) (u32leAt data 24) (u32leAt data 8) (u32leAt data 12))
      else .ok .unknown

/-- Loop body of `_decode_rgba4444`: one 16-bit word to four RGBA bytes,
each 4-bit field scaled by 17. -/
def decode4444Word (word : Nat) : List Nat :=
  [((word >>> 12) &&& 0xF) * 17, ((word >>> 8) &&& 0xF) * 17,
   ((word >>> 4) &&& 0xF) * 17, ((word >>> 0) &&& 0xF) * 17]

/-- Loop body of `_decode_rgba5551`: 5-bit fields shifted left by 3, and
the 1-bit alpha scaled by 255. -/
def decode5551Word (word : Nat) : List Nat :=
  [((word >>> 11) &&& 0x1F) <<< 3, ((word >>> 6) &&& 0x1F) <<< 3,
   ((word >>> 1) &&& 0x1F) <<< 3, (word &&& 0x1) * 255]

/-- Loop body of `_decode_rgb555`: three 5-bit fields shifted left by 3. -/
def decode555Word (word : Nat) : List Nat :=
  [((word >>> 10) &&& 0x1F) <<< 3, ((word >>> 5) &&& 0x1F) <<< 3,
   ((word >>> 0) &&& 0x1F) <<< 3]

/-- `_decode_rgba4444` from `_pvr.py`: the flat RGBA byte buffer, one
16-bit little-endian word per pixel; `struct.unpack_from` raises
`struct.error` when the raw buffer is shorter than `2*w*h` bytes. -/
def decode_rgba4444 (raw : List Nat) (w h : Nat) : Except PyError (List Nat) :=
  if 2 * (w * h) ≤ raw.length then
    .ok ((List.range (w * h)).flatMap fun i => decode4444Word (le16At raw (i * 2)))
  else .error .structError

/-- `_decode_rgba5551` from `_pvr.py`. -/
def decode_rgba5551 (raw : List Nat) (w h : Nat) : Except PyError (List Nat) :=
  if 2 * (w * h) ≤ raw.length then
    .ok ((List.range (w * h)).flatMap fun i => decode5551Word (le16At raw (i * 2)))
  else .error .structError

/-- `_decode_rgb555` from `_pvr.py` (three RGB bytes per pixel). -/
def decode_rgb555 (raw : List Nat) (w h : Nat) : Except PyError (List Nat) :=
  if 2 * (w * h) ≤ raw.length then
    .ok ((List.range (w * h)).flatMap fun i => decode555Word (le16At raw (i * 2)))
  else .error .structError

/-- The spec's 4-bit-to-8-bit bit replication: the nibble in both halves
of the byte. -/
def bitReplicate4 (v : Nat) : Nat :=
  (v <<< 4) ||| v

-- ── Image model (PIL operations used by `logic.py`) ──────────────────────

/-- An image: width, height and a total pixel function (pixel values are
abstract `Nat`s; out-of-range coordinates are simply never consulted by
in-range reasoning). -/
structure LImage where
  w : Nat
  h : Nat
  pix : Nat → Nat → Nat

/-- Read a source pixel at signed coordinates, as PIL's `crop` does:
coordinates outside the source yield the fill value 0. -/
def readA (img : LImage) (sx sy : Int) : Nat :=
  if 0 ≤ sx ∧ sx < (img.w : Int) ∧ 0 ≤ sy ∧ sy < (img.h : Int) then
    img.pix sx.toNat sy.toNat
  else 0

/-- PIL `Image.crop((l, t, r, b))` for a well-ordered box (`l ≤ r`,
`t ≤ b`): size `(r-l, b-t)`, contents read from the source with zero
padding outside its bounds — a well-ordered box lying partly or wholly
outside the source never raises.  Pillow raises `ValueError` for an
inverted box; that error path is modelled by `cropPIL_checked`. -/
def cropPIL (img : LImage) (l t r b : Int) : LImage :=
  ⟨(r - l).toNat, (b - t).toNat, fun x y => readA img (l + (x : Int)) (t + (y : Int))⟩

/-- PIL `Image.crop((l, t, r, b))` with Pillow's box-validity checks, in
source order: `ValueError` when `right < left`, then when
`lower < upper`; otherwise the well-ordered-box semantics `cropPIL`. -/
def cropPIL_checked (img : LImage) (l t r b : Int) : Except PyError LImage :=
  if r < l then .error .valueError
  else if b < t then .error .valueError
  else .ok (cropPIL img l t r b)

/-- PIL `transpose(FLIP_TOP_BOTTOM)`. -/
def flip_top_bottom (img : LImage) : LImage :=
  ⟨img.w, img.h, fun x y => img.pix x (img.h - 1 - y)⟩

/-- PIL `rotate(90, expand=True)`: a 90-degree counter-clockwise rotation
with swapped output size. -/
def rotate90_expand (img : LImage) : LImage :=
  ⟨img.h, img.w, fun x y => img.pix (img.w - 1 - y) x⟩

-- ── Extraction orchestrator (`logic.py`) ─────────────────────────────────

/-- `_crop_sprite` from `logic.py`: convert the bottom-left-origin frame
rectangle to PIL's top-left origin, crop, flip vertically, and for a
rotated frame rotate 90 degrees counter-clockwise with an expanded
frame. -/
def crop_sprite (atlas : LImage) (f : AtlasSpriteFrame) : LImage :=
  if f.rotated then
    let packed_w := f.h
    let packed_h := f.w
    let y : Int := (atlas.h : Int) - f.y - packed_h
    rotate90_expand (flip_top_bottom
      (cropPIL atlas f.x y (f.x + packed_w) (y + packed_h)))
  else
    let y : Int := (atlas.h : Int) - f.y - f.h
    flip_top_bottom (cropPIL atlas f.x y (f.x + f.w) (y + f.h))

/-- Modelled from the spec's crop-and-unrotate description (§4.4 step 6):
`y_top_left = texture_height - rect_y - packed_height` where
`packed_height` is the stored height for an unrotated entry and the
stored width for a rotated one, followed by a vertical flip and, for a
rotated entry, an additional 90-degree rotation. -/
def crop_unrotate_spec (atlas : LImage) (f : AtlasSpriteFrame) : LImage :=
  let packed_h : Int := if f.rotated then f.w else f.h
  let packed_w : Int := if f.rotated then f.h else f.w
  let y_top_left : Int := (atlas.h : Int) - f.y - packed_h
  let base := flip_top_bottom
    (cropPIL atlas f.x y_top_left (f.x + packed_w) (y_top_left + packed_h))
  if f.rotated then rotate90_expand base else base

/-- `_crop_sprite` with Pillow's `Image.crop` box-validity error
surfaced: the crop boxes of both branches are inverted exactly when the
frame declares a negative width or height, in which case Pillow raises
`ValueError`; for a valid box the result is the total `crop_sprite`
value. -/
def crop_sprite_checked (atlas : LImage) (f : AtlasSpriteFrame) :
    Except PyError LImage :=
  if f.rotated then
    let packed_w := f.h
    let packed_h := f.w
    let y : Int := (atlas.h : Int) - f.y - packed_h
    match cropPIL_checked atlas f.x y (f.x + packed_w) (y + packed_h) with
    | .error e => .error e
    | .ok region => .ok (rotate90_expand (flip_top_bottom region))
  else
    let y : Int := (atlas.h : Int) - f.y - f.h
    match cropPIL_checked atlas f.x y (f.x + f.w) (y + f.h) with
    | .error e => .error e
    | .ok region => .ok (flip_top_bottom region)

/-- `ImageData` from `core/datatypes.py`, restricted to the fields the
unpacker fills in. -/
structure ImageData where
  path : String
  width : Nat
  height : Nat
  format : String
deriving DecidableEq

/-- Progress notifications sent on the event bus by `extract_atlas`. -/
inductive AtlasEvent where
  | progress (current total : Nat) (message : String)
  | completed (message : String)
deriving DecidableEq

/-- The `(current, total)` pair of a progress event. -/
def eventCT : AtlasEvent → Nat × Nat
  | .progress c t _ => (c, t)
  | .completed _ => (0, 0)

/-- Whether an event is a progress notification. -/
def isProgressEvent : AtlasEvent → Bool
  | .progress _ _ _ => true
  | .completed _ => false

/-- ASCII-lowered test for a name ending in `.png`, as Python's
`name.lower().endswith(".png")`. -/
def lowerEndsWithPng (name : String) : Bool :=
  (name.data.map Char.toLower).reverse.take 4 == ['g', 'n', 'p', '.']

/-- Output filename of one frame: the name with a trailing `.png`
stripped case-insensitively, then the suffix, then `.png`. -/
def outNameOf (sfx : String) (name : String) : String :=
  let stem := if lowerEndsWithPng name then
    String.mk (name.data.take (name.data.length - 4))
  else name
  stem ++ sfx ++ ".png"

/-- Progress message for a skipped frame. -/
def skipMsg (out_name : String) : String :=
  "Skipped (exists) " ++ out_name

/-- Progress message for an extracted frame. -/
def extractedMsg (out_name : String) (cur total : Nat) : String :=
  "Extracted " ++ out_name ++ " (" ++ toString cur ++ "/" ++ toString total ++ ")"

/-- Completion message. -/
def doneMsg (n : Nat) (plistName : String) : String :=
  "Done — " ++ toString n ++ " sprites extracted from " ++ plistName

/-- Observable state accumulated by the extraction loop: result entries,
file writes (path and image written) and emitted events. -/
structure ExtractState where
  images : List ImageData
  writes : List (String × LImage)
  events : List AtlasEvent

/-- The per-frame loop of `extract_atlas`: `written` is the set of output
paths written so far in this run (a file written earlier in the run is
seen by the later `out_path.exists()` check); `exist0` is the set of
output files that existed before the run.  An exception raised inside
`_crop_sprite` (Pillow's `ValueError` for an inverted crop box) aborts
the loop and propagates, so no result is produced. -/
def extractGo (atlas : LImage) (sfx : String) (skip_existing : Bool)
    (exist0 : String → Bool) (total : Nat) :
    List (String × AtlasSpriteFrame) → Nat → List String →
      Except PyError ExtractState
  | [], _, _ => .ok ⟨[], [], []⟩
  | (name, f) :: rest, idx, written =>
    let out_name := outNameOf sfx name
    if skip_existing = true ∧ (exist0 out_name = true ∨ out_name ∈ written) then
      (extractGo atlas sfx skip_existing exist0 total rest (idx + 1) written).map
        fun s => ⟨s.images, s.writes,
          .progress (idx + 1) total (skipMsg out_name) :: s.events⟩
    else
      match crop_sprite_checked atlas f with
      | .error e => .error e
      | .ok sprite =>
        (extractGo atlas sfx skip_existing exist0 total rest (idx + 1)
            (out_name :: written)).map
          fun s => ⟨⟨out_name, sprite.w, sprite.h, "png"⟩ :: s.images,
            (out_name, sprite) :: s.writes,
            .progress (idx + 1) total (extractedMsg out_name (idx + 1) total)
              :: s.events⟩

/-- `AtlasUnpackResult` together with the run's observable effects. -/
structure AtlasUnpackResult where
  images : List ImageData
  count : Nat
  writes : List (String × LImage)
  events : List AtlasEvent

/-- `extract_atlas` from `logic.py`, after the texture and descriptor are
loaded: iterate the frames in order, then emit the completion event.  The
result `count` is the number of extracted (non-skipped) entries; an
exception escaping the per-frame loop propagates and no result is
returned. -/
def extract_atlas (atlas : LImage) (sfx : String) (skip_existing : Bool)
    (exist0 : String → Bool) (frames : List (String × AtlasSpriteFrame))
    (plistName : String) : Except PyError AtlasUnpackResult :=
  (extractGo atlas sfx skip_existing exist0 frames.length frames 0 []).map
    fun s => ⟨s.images, s.images.length, s.writes,
      s.events ++ [.completed (doneMsg s.images.length plistName)]⟩

/-- The output filenames computed for a frame list. -/
def outNames (sfx : String) (frames : List (String × AtlasSpriteFrame)) : List String :=
  frames.map fun p => outNameOf sfx p.1

/-- The frames whose output file does not pre-exist (the ones a
`skip_existing` run extracts). -/
def keptFrames (sfx : String) (exist0 : String → Bool)
    (frames : List (String × AtlasSpriteFrame)) : List (String × AtlasSpriteFrame) :=
  frames.filter fun p => !exist0 (outNameOf sfx p.1)

-- ── Concrete inputs used by witnesses and counterexamples ────────────────

/-- The trivial stored codec: compression is the identity and
decompression always succeeds. -/
def okCodec : List Nat → Except Unit (List Nat) := fun p => .ok p

/-- A 128x128 atlas with distinguishable pixel values. -/
def atlasEx : LImage := ⟨128, 128, fun x y => x + 1000 * y⟩

/-- A rotated frame declaring original size 64x32 (packed as 32x64). -/
def frameRot : AtlasSpriteFrame := ⟨"hero.png", 5, 7, 64, 32, true, 64, 32, 0, 0⟩

/-- A tiny 4x4 atlas of constant pixel value 9. -/
def atlasOob : LImage := ⟨4, 4, fun _ _ => 9⟩

/-- A frame whose 8x8 rectangle extends outside the 4x4 atlas. -/
def frameOob : AtlasSpriteFrame := ⟨"big.png", 0, 0, 8, 8, false, 8, 8, 0, 0⟩

/-- A 64x64 atlas of constant pixel value 1. -/
def atlasQuad : LImage := ⟨64, 64, fun _ _ => 1⟩

/-- Four 32x32 quadrant frames in bottom-left-origin coordinates. -/
def framesFour : List (String × AtlasSpriteFrame) :=
  [("red.png", ⟨"red.png", 0, 32, 32, 32, false, 32, 32, 0, 0⟩),
   ("green.png", ⟨"green.png", 32, 32, 32, 32, false, 32, 32, 0, 0⟩),
   ("blue.png", ⟨"blue.png", 0, 0, 32, 32, false, 32, 32, 0, 0⟩),
   ("yellow.png", ⟨"yellow.png", 32, 0, 32, 32, false, 32, 32, 0, 0⟩)]

/-- Exactly the output file `green.png` pre-exists. -/
def existGreen : String → Bool := fun p => p == "green.png"

-- ── Theorems ─────────────────────────────────────────────────────────────

/-- C10: `is_ccz` is total over all byte strings (the model is a total
function, as Python slicing cannot raise) and returns `true` exactly when
the input begins with the 4-byte magic tag; any input shorter than 4
bytes yields `false`. -/
theorem is_ccz_spec (data : List Nat) :
    (is_ccz data = true ↔ cczMagic <+: data)
    ∧ (data.length < 4 → is_ccz data = false) := by
  constructor
  · rw [is_ccz, beq_iff_eq, List.prefix_iff_eq_take]
    constructor
    · intro h
      exact h.symm
    · intro h
      exact h.symm
  · intro hlt
    have h4 : data.take 4 = data := List.take_of_length_le (by omega)
    rw [is_ccz, h4, beq_eq_false_iff_ne]
    intro he
    rw [he] at hlt
    simp [cczMagic] at hlt

/-- Witness for C10 at concrete inputs. -/
theorem is_ccz_spec_witness :
    is_ccz [67, 67, 90, 33, 5] = true ∧ is_ccz [67, 67] = false :=
  ⟨(is_ccz_spec [67, 67, 90, 33, 5]).1.mpr (by decide),
   (is_ccz_spec [67, 67]).2 (by decide)⟩

/-- C7: `decompress_ccz` returns a `ToolError` (the spec's `FormatError`)
with a cause-specific message in exactly three header cases — input
shorter than 16 bytes, wrong 4-byte magic, or a big-endian method code at
offset 4 outside 0..3 — and for inputs passing all three checks it never
returns a `ToolError`. -/
theorem decompress_ccz_header_errors (zd bd gd : List Nat → Except Unit (List Nat))
    (data : List Nat) :
    (data.length < 16 →
      decompress_ccz zd bd gd data
        = .error (.toolError (cczTooShortMsg data.length)))
    ∧ (16 ≤ data.length → data.take 4 ≠ cczMagic →
      decompress_ccz zd bd gd data
        = .error (.toolError (cczBadMagicMsg (data.take 4))))
    ∧ (16 ≤ data.length → data.take 4 = cczMagic → 4 ≤ ccz_comp_type data →
      decompress_ccz zd bd gd data
        = .error (.toolError (cczUnknownMsg (ccz_comp_type data))))
    ∧ (16 ≤ data.length → data.take 4 = cczMagic → ccz_comp_type data < 4 →
      ∀ msg, decompress_ccz zd bd gd data ≠ .error (.toolError msg)) := by
  refine ⟨fun h => ?_, fun h hm => ?_, fun h hm hc => ?_, fun h hm hc msg => ?_⟩
  · simp [decompress_ccz, h]
  · simp only [decompress_ccz]
    rw [if_neg (by omega), if_pos hm]
  · simp only [decompress_ccz]
    rw [if_neg (by omega), if_neg (by simp [hm]), if_neg (by omega),
      if_neg (by omega), if_neg (by omega), if_neg (by omega)]
  · have h0 : ccz_comp_type data = 0 ∨ ccz_comp_type data = 1
      ∨ ccz_comp_type data = 2 ∨ ccz_comp_type data = 3 := by omega
    simp only [decompress_ccz]
    rw [if_neg (by omega), if_neg (by simp [hm])]
    rcases h0 with h0 | h0 | h0 | h0
    · rw [if_pos h0]
      cases zd (data.drop 16) <;> simp [liftCodec]
    · rw [if_neg (by omega), if_pos h0]
      cases bd (data.drop 16) <;> simp [liftCodec]
    · rw [if_neg (by omega), if_neg (by omega), if_pos h0]
      cases gd (data.drop 16) <;> simp [liftCodec]
    · rw [if_neg (by omega), if_neg (by omega), if_neg (by omega), if_pos h0]
      simp

/-- Witness for C7: the empty input hits the too-short case. -/
theorem decompress_ccz_header_errors_witness :
    decompress_ccz okCodec okCodec okCodec []
      = .error (.toolError (cczTooShortMsg 0)) :=
  (decompress_ccz_header_errors okCodec okCodec okCodec []).1 (by decide)

/-- `decompress_ccz` only depends on the first 12 bytes and the payload
from byte 16 on: agreement of `take 12`, `drop 16` and the length gives
equal results. -/
theorem decompress_ccz_take_drop_agree
    (zd bd gd : List Nat → Except Unit (List Nat)) (a b : List Nat)
    (hlen : a.length = b.length) (h12 : a.take 12 = b.take 12)
    (h16 : a.drop 16 = b.drop 16) :
    decompress_ccz zd bd gd a = decompress_ccz zd bd gd b := by
  have h4 : a.take 4 = b.take 4 := by
    have h := congrArg (List.take 4) h12
    simpa [List.take_take] using h
  have hidx : ∀ i, i < 12 → a.getD i 0 = b.getD i 0 := by
    intro i hi
    have h := congrArg (fun l => l.getD i 0) h12
    simpa [List.getD_eq_getElem?_getD, List.getElem?_take, hi] using h
  have hcomp : ccz_comp_type a = ccz_comp_type b := by
    rw [ccz_comp_type, ccz_comp_type, hidx 4 (by omega), hidx 5 (by omega)]
  simp only [decompress_ccz]
  rw [hlen, h4, hcomp, h16]

/-- C8: the declared-uncompressed-length field (bytes 12-15) is advisory:
two inputs of the same length that agree byte-for-byte at every position
outside 12..15 decompress to the same result (same payload or same
error) — the output never depends on the declared length and no mismatch
check against the decompressed size occurs. -/
theorem decompress_ccz_ignores_length_field
    (zd bd gd : List Nat → Except Unit (List Nat)) (a b : List Nat)
    (hlen : a.length = b.length)
    (hagree : ∀ i, i < a.length → i < 12 ∨ 16 ≤ i → a.getD i 0 = b.getD i 0) :
    decompress_ccz zd bd gd a = decompress_ccz zd bd gd b := by
  have htake : a.take 12 = b.take 12 := by
    apply List.ext_getElem?
    intro i
    rw [List.getElem?_take, List.getElem?_take]
    by_cases hi : i < 12
    · rw [if_pos hi, if_pos hi]
      by_cases hlt : i < a.length
      · rw [List.getElem?_eq_getElem hlt,
          List.getElem?_eq_getElem (show i < b.length by omega)]
        have h := hagree i hlt (Or.inl hi)
        rw [List.getD_eq_getElem?_getD, List.getD_eq_getElem?_getD,
          List.getElem?_eq_getElem hlt,
          List.getElem?_eq_getElem (show i < b.length by omega)] at h
        simpa using h
      · rw [List.getElem?_eq_none (by omega), List.getElem?_eq_none (by omega)]
    · rw [if_neg hi, if_neg hi]
  have hdrop : a.drop 16 = b.drop 16 := by
    apply List.ext_getElem?
    intro i
    rw [List.getElem?_drop, List.getElem?_drop]
    by_cases hlt : 16 + i < a.length
    · rw [List.getElem?_eq_getElem hlt,
        List.getElem?_eq_getElem (show 16 + i < b.length by omega)]
      have h := hagree (16 + i) hlt (Or.inr (by omega))
      rw [List.getD_eq_getElem?_getD, List.getD_eq_getElem?_getD,
        List.getElem?_eq_getElem hlt,
        List.getElem?_eq_getElem (show 16 + i < b.length by omega)] at h
      simpa using h
    · rw [List.getElem?_eq_none (by omega), List.getElem?_eq_none (by omega)]
  exact decompress_ccz_take_drop_agree zd bd gd a b hlen htake hdrop

/-- Witness for C8: two containers differing only in byte 12. -/
theorem decompress_ccz_ignores_length_field_witness :
    decompress_ccz okCodec okCodec okCodec
        [67, 67, 90, 33, 0, 3, 0, 2, 0, 0, 0, 0, 255, 0, 0, 7, 8, 9]
      = decompress_ccz okCodec okCodec okCodec
        [67, 67, 90, 33, 0, 3, 0, 2, 0, 0, 0, 0, 44, 0, 0, 7, 8, 9] :=
  decompress_ccz_ignores_length_field okCodec okCodec okCodec _ _
    (by decide) (by decide)

/-- Fields of a well-formed container as `decompress_ccz` reads them. -/
theorem wrap_ccz_fields (m : Nat) (hm : m < 256) (rest body : List Nat)
    (hr : rest.length = 10) :
    (wrap_ccz m rest body).length = 16 + body.length
    ∧ (wrap_ccz m rest body).take 4 = cczMagic
    ∧ ccz_comp_type (wrap_ccz m rest body) = m
    ∧ (wrap_ccz m rest body).drop 16 = body := by
  refine ⟨?_, ?_, ?_, ?_⟩
  · simp [wrap_ccz, cczMagic, hr]
    omega
  · rfl
  · show (m / 256 % 256) * 256 + m % 256 = m
    omega
  · show (rest ++ body).drop 10 = body
    rw [← hr]
    exact List.drop_left _ _

/-- C3: for each of the four method codes, decompressing a well-formed
container whose body was produced by the matching codec (or stored
unchanged for method 3) recovers the payload exactly, whenever the codec
pair round-trips. -/
theorem decompress_wrap_roundtrip
    (zc bc gc : List Nat → List Nat) (zd bd gd : List Nat → Except Unit (List Nat))
    (hz : ∀ p, zd (zc p) = .ok p) (hb : ∀ p, bd (bc p) = .ok p)
    (hg : ∀ p, gd (gc p) = .ok p) (rest : List Nat) (hr : rest.length = 10)
    (payload : List Nat) :
    decompress_ccz zd bd gd (wrap_ccz 0 rest (zc payload)) = .ok payload
    ∧ decompress_ccz zd bd gd (wrap_ccz 1 rest (bc payload)) = .ok payload
    ∧ decompress_ccz zd bd gd (wrap_ccz 2 rest (gc payload)) = .ok payload
    ∧ decompress_ccz zd bd gd (wrap_ccz 3 rest payload) = .ok payload := by
  refine ⟨?_, ?_, ?_, ?_⟩
  · obtain ⟨hl, ht, hc, hd⟩ := wrap_ccz_fields 0 (by omega) rest (zc payload) hr
    simp only [decompress_ccz]
    rw [if_neg (by omega), if_neg (by simp [ht]), hc, hd]
    simp [liftCodec, hz]
  · obtain ⟨hl, ht, hc, hd⟩ := wrap_ccz_fields 1 (by omega) rest (bc payload) hr
    simp only [decompress_ccz]
    rw [if_neg (by omega), if_neg (by simp [ht]), hc, hd]
    simp [liftCodec, hb]
  · obtain ⟨hl, ht, hc, hd⟩ := wrap_ccz_fields 2 (by omega) rest (gc payload) hr
    simp only [decompress_ccz]
    rw [if_neg (by omega), if_neg (by simp [ht]), hc, hd]
    simp [liftCodec, hg]
  · obtain ⟨hl, ht, hc, hd⟩ := wrap_ccz_fields 3 (by omega) rest payload hr
    simp only [decompress_ccz]
    rw [if_neg (by omega), if_neg (by simp [ht]), hc, hd]
    simp

/-- Witness for C3 with the identity codec and payload `[1, 2, 3]`. -/
theorem decompress_wrap_roundtrip_witness :
    decompress_ccz okCodec okCodec okCodec
        (wrap_ccz 0 [0, 2, 0, 0, 0, 0, 0, 0, 0, 3] [1, 2, 3]) = .ok [1, 2, 3]
    ∧ decompress_ccz okCodec okCodec okCodec
        (wrap_ccz 1 [0, 2, 0, 0, 0, 0, 0, 0, 0, 3] [1, 2, 3]) = .ok [1, 2, 3]
    ∧ decompress_ccz okCodec okCodec okCodec
        (wrap_ccz 2 [0, 2, 0, 0, 0, 0, 0, 0, 0, 3] [1, 2, 3]) = .ok [1, 2, 3]
    ∧ decompress_ccz okCodec okCodec okCodec
        (wrap_ccz 3 [0, 2, 0, 0, 0, 0, 0, 0, 0, 3] [1, 2, 3]) = .ok [1, 2, 3] :=
  decompress_wrap_roundtrip id id id okCodec okCodec okCodec
    (fun _ => rfl) (fun _ => rfl) (fun _ => rfl)
    [0, 2, 0, 0, 0, 0, 0, 0, 0, 3] (by decide) [1, 2, 3]

/-- Counterexample to C4: on the input `"-"` the scanner extracts one
token (not 4), yet parsing raises `ValueError` from the `float`
conversion, not the `ToolError`/`FormatError` the claim requires. -/
theorem parse_rect_nonnumeric_counterexample :
    findallNum "-".data = [['-']]
    ∧ (findallNum "-".data).length = 1
    ∧ parse_rect "-" = .error PyError.valueError
    ∧ isToolErrorRes (parse_rect "-") = false := by
  decide

/-- C4 (amended): the three rect shapes all parse to `(0,0,32,32)`;
negative and decimal tokens are truncated toward zero; and for every
input string whose extracted tokens are all convertible by `float`, a
token count other than 4 (2 for point fields) raises a `ToolError`, while
any non-convertible token (such as a bare `-`) raises `ValueError`
instead. -/
theorem parse_rect_point_amended :
    (parse_rect "\x7b\x7b0,0\x7d,\x7b32,32\x7d\x7d" = .ok (0, 0, 32, 32)
      ∧ parse_rect "\x7b0,0,32,32\x7d" = .ok (0, 0, 32, 32)
      ∧ parse_rect "0 0 32 32" = .ok (0, 0, 32, 32))
    ∧ parse_point "\x7b-3.7,5.9\x7d" = .ok (-3, 5)
    ∧ (∀ s : String, (findallNum s.data).all floatable = true →
        (findallNum s.data).length ≠ 4 →
        parse_rect s = .error (.toolError (rectErrMsg s)))
    ∧ (∀ s : String, (findallNum s.data).all floatable = true →
        (findallNum s.data).length ≠ 2 →
        parse_point s = .error (.toolError (pointErrMsg s)))
    ∧ (∀ s : String, (findallNum s.data).all floatable = false →
        parse_rect s = .error .valueError)
    ∧ (∀ s : String, (findallNum s.data).all floatable = false →
        parse_point s = .error .valueError) := by
  refine ⟨by decide, by decide, ?_, ?_, ?_, ?_⟩
  · intro s hall hlen
    obtain ⟨t, ht⟩ : ∃ t, findallNum s.data = t := ⟨_, rfl⟩
    rw [ht] at hall hlen
    simp only [parse_rect, ht]
    rw [if_pos hall]
    rcases t with _ | ⟨a, _ | ⟨b, _ | ⟨c, _ | ⟨d, _ | e⟩⟩⟩⟩
    · rfl
    · rfl
    · rfl
    · rfl
    · simp at hlen
    · rfl
  · intro s hall hlen
    obtain ⟨t, ht⟩ : ∃ t, findallNum s.data = t := ⟨_, rfl⟩
    rw [ht] at hall hlen
    simp only [parse_point, ht]
    rw [if_pos hall]
    rcases t with _ | ⟨a, _ | ⟨b, _ | e⟩⟩
    · rfl
    · rfl
    · simp at hlen
    · rfl
  · intro s hfl
    simp only [parse_rect]
    rw [if_neg (by simp [hfl])]
  · intro s hfl
    simp only [parse_point]
    rw [if_neg (by simp [hfl])]

/-- Witness for C4 (amended) at a two-token rect string. -/
theorem parse_rect_point_amended_witness :
    parse_rect "\x7b1,2\x7d" = .error (.toolError (rectErrMsg "\x7b1,2\x7d")) :=
  parse_rect_point_amended.2.2.1 "\x7b1,2\x7d" (by decide) (by decide)

/-- Counterexample to C5: a 5551 (and 555) word with all 5-bit channels
at the maximum value 31 decodes to channel value 248, not 255 — the 5-bit
expansion is a plain left shift by 3, not a range-preserving
replication. -/
theorem decode5551_not_full_range_counterexample :
    decode_rgba5551 [255, 255] 1 1 = .ok [248, 248, 248, 255]
    ∧ decode_rgb555 [255, 255] 1 1 = .ok [248, 248, 248]
    ∧ (248 : Nat) ≠ 255 := by
  decide

/-- C5 (amended): the 4-4-4-4 decoder expands each 4-bit channel by bit
replication (`v * 17`, equal to the nibble duplicated into both halves,
mapping 15 to 255); the 5-5-5-1 and 5-5-5 decoders expand each 5-bit
channel by a left shift of 3 (mapping 31 to 248, not 255); the 1-bit
alpha maps 0 to 0 and 1 to 255; and each full decoder emits exactly these
per-word bytes for every pixel. -/
theorem packed_decoders_expansion (word : Nat) :
    decode4444Word word
      = [bitReplicate4 ((word >>> 12) &&& 0xF), bitReplicate4 ((word >>> 8) &&& 0xF),
         bitReplicate4 ((word >>> 4) &&& 0xF), bitReplicate4 ((word >>> 0) &&& 0xF)]
    ∧ decode5551Word word
      = [8 * ((word >>> 11) &&& 0x1F), 8 * ((word >>> 6) &&& 0x1F),
         8 * ((word >>> 1) &&& 0x1F), 255 * (word &&& 0x1)]
    ∧ decode555Word word
      = [8 * ((word >>> 10) &&& 0x1F), 8 * ((word >>> 5) &&& 0x1F),
         8 * ((word >>> 0) &&& 0x1F)]
    ∧ bitReplicate4 15 = 255
    ∧ (word &&& 0x1 = 1 → (decode5551Word word).getD 3 0 = 255)
    ∧ (word &&& 0x1 = 0 → (decode5551Word word).getD 3 0 = 0)
    ∧ 8 * 31 = 248
    ∧ (∀ raw w h, 2 * (w * h) ≤ raw.length →
        decode_rgba4444 raw w h
          = .ok ((List.range (w * h)).flatMap fun i =>
              decode4444Word (le16At raw (i * 2))))
    ∧ (∀ raw w h, 2 * (w * h) ≤ raw.length →
        decode_rgba5551 raw w h
          = .ok ((List.range (w * h)).flatMap fun i =>
              decode5551Word (le16At raw (i * 2))))
    ∧ (∀ raw w h, 2 * (w * h) ≤ raw.length →
        decode_rgb555 raw w h
          = .ok ((List.range (w * h)).flatMap fun i =>
              decode555Word (le16At raw (i * 2)))) := by
  have hrep : ∀ v : Nat, v < 16 → v * 17 = bitReplicate4 v := by decide
  have hand15 : ∀ x : Nat, x &&& 15 < 16 :=
    fun x => lt_of_le_of_lt Nat.and_le_right (by norm_num)
  have hsh : ∀ a : Nat, a <<< 3 = 8 * a := fun a => by
    rw [Nat.shiftLeft_eq]
    ring
  have hm255 : ∀ a : Nat, a * 255 = 255 * a := fun a => by ring
  refine ⟨?_, ?_, ?_, by decide, ?_, ?_, by decide, ?_, ?_, ?_⟩
  · simp only [decode4444Word]
    rw [hrep _ (hand15 _), hrep _ (hand15 _), hrep _ (hand15 _), hrep _ (hand15 _)]
  · simp only [decode5551Word, hsh, hm255]
  · simp only [decode555Word, hsh]
  · intro h1
    simp [decode5551Word, h1]
  · intro h0
    simp [decode5551Word, h0]
  · intro raw w h hle
    simp only [decode_rgba4444]
    rw [if_pos hle]
  · intro raw w h hle
    simp only [decode_rgba5551]
    rw [if_pos hle]
  · intro raw w h hle
    simp only [decode_rgb555]
    rw [if_pos hle]

/-- Witness for C5 (amended) at concrete words and a one-pixel buffer. -/
theorem packed_decoders_expansion_witness :
    decode_rgba4444 [255, 255] 1 1
      = .ok ((List.range 1).flatMap fun i => decode4444Word (le16At [255, 255] (i * 2)))
    ∧ (decode5551Word 1).getD 3 0 = 255 :=
  ⟨(packed_decoders_expansion 0).2.2.2.2.2.2.2.1 [255, 255] 1 1 (by decide),
   (packed_decoders_expansion 1).2.2.2.2.1 (by decide)⟩

/-- Counterexample to C6: `describe_pvr` is not total — on the empty
input (shorter than 48 bytes) the tag read at offset 44 raises
`struct.error` instead of returning an "unknown" sentinel. -/
theorem describe_pvr_short_input_counterexample :
    describe_pvr [] = .error PyError.structError := by
  decide

/-- C6 (amended): for every input of at least 48 bytes `describe_pvr`
never raises, and when neither the v2 tag at offset 44 nor the v3 magic
at offset 0 matches it returns the "unknown" sentinel; shorter inputs
raise `struct.error` from the offset-44 read. -/
theorem describe_pvr_total_amended (data : List Nat) (hlen : 48 ≤ data.length) :
    (∃ info, describe_pvr data = .ok info)
    ∧ (u32leAt data 44 ≠ pvr2Tag → u32leAt data 0 ≠ pvr3Magic →
        describe_pvr data = .ok PvrInfo.unknown) := by
  constructor
  · simp only [describe_pvr]
    rw [if_neg (by omega)]
    by_cases h2 : u32leAt data 44 = pvr2Tag
    · rw [if_pos h2]
      exact ⟨_, rfl⟩
    · rw [if_neg h2]
      by_cases h3 : u32leAt data 0 = pvr3Magic
      · rw [if_pos h3]
        exact ⟨_, rfl⟩
      · rw [if_neg h3]
        exact ⟨_, rfl⟩
  · intro h2 h3
    simp only [describe_pvr]
    rw [if_neg (by omega), if_neg h2, if_neg h3]

/-- Witness for C6 (amended): 48 zero bytes match neither signature and
yield the sentinel. -/
theorem describe_pvr_total_amended_witness :
    describe_pvr (List.replicate 48 0) = .ok PvrInfo.unknown :=
  (describe_pvr_total_amended (List.replicate 48 0) (by decide)).2
    (by decide) (by decide)

/-- `readA` only depends on the coordinate values. -/
theorem readA_eq_of_eq (img : LImage) {a b a2 b2 : Int} (ha : a = a2) (hb : b = b2) :
    readA img a b = readA img a2 b2 := by
  rw [ha, hb]

/-- C1: `_crop_sprite` implements the spec's crop-and-unrotate contract:
it equals the composition that crops at
`y_top_left = texture_height - rect_y - packed_height` (with
`packed_height` the stored height when unrotated and the stored width
when rotated), flips vertically, and rotates a rotated entry 90 degrees;
the output always has the declared logical size `(w, h)`; in-range output
pixels read the atlas at the coordinates that composition dictates; and a
rotated frame declaring 64x32 (packed 32x64) yields exactly a 64x32
image. -/
theorem crop_sprite_correct (atlas : LImage) (f : AtlasSpriteFrame) :
    crop_sprite atlas f = crop_unrotate_spec atlas f
    ∧ (0 ≤ f.w → 0 ≤ f.h →
        (crop_sprite atlas f).w = f.w.toNat ∧ (crop_sprite atlas f).h = f.h.toNat)
    ∧ (f.rotated = true → 0 ≤ f.w → 0 ≤ f.h →
        ∀ x y : Nat, (x : Int) < f.w → (y : Int) < f.h →
          (crop_sprite atlas f).pix x y
            = readA atlas (f.x + f.h - 1 - (y : Int))
                ((atlas.h : Int) - f.y - 1 - (x : Int)))
    ∧ (f.rotated = false → 0 ≤ f.w → 0 ≤ f.h →
        ∀ x y : Nat, (x : Int) < f.w → (y : Int) < f.h →
          (crop_sprite atlas f).pix x y
            = readA atlas (f.x + (x : Int))
                ((atlas.h : Int) - f.y - 1 - (y : Int)))
    ∧ (f.rotated = true → f.w = 64 → f.h = 32 →
        (crop_sprite atlas f).w = 64 ∧ (crop_sprite atlas f).h = 32) := by
  refine ⟨?_, ?_, ?_, ?_, ?_⟩
  · cases hr : f.rotated <;> simp [crop_sprite, crop_unrotate_spec, hr]
  · intro hw hh
    cases hr : f.rotated <;>
      simp only [crop_sprite, hr, if_true, if_false, Bool.false_eq_true,
        rotate90_expand, flip_top_bottom, cropPIL] <;>
      constructor <;> omega
  · intro hr hw hh x y hx hy
    simp only [crop_sprite, hr, if_true, rotate90_expand, flip_top_bottom, cropPIL]
    exact readA_eq_of_eq atlas (by omega) (by omega)
  · intro hr hw hh x y hx hy
    simp only [crop_sprite, hr, Bool.false_eq_true, if_false, flip_top_bottom, cropPIL]
    exact readA_eq_of_eq atlas (by omega) (by omega)
  · intro hr hw hh
    cases hr2 : f.rotated
    · rw [hr2] at hr
      exact absurd hr (by simp)
    · simp only [crop_sprite, hr2, if_true, rotate90_expand, flip_top_bottom, cropPIL]
      constructor <;> omega

/-- Witness for C1 at a concrete rotated 64x32 frame. -/
theorem crop_sprite_correct_witness :
    ((crop_sprite atlasEx frameRot).w = 64 ∧ (crop_sprite atlasEx frameRot).h = 32)
    ∧ (crop_sprite atlasEx frameRot).pix 0 0 = 120036 :=
  ⟨(crop_sprite_correct atlasEx frameRot).2.2.2.2 rfl rfl rfl,
   ((crop_sprite_correct atlasEx frameRot).2.2.1 rfl (by decide) (by decide)
      0 0 (by decide) (by decide)).trans (by decide)⟩

/-- For a frame with nonnegative declared size, both crop boxes of
`_crop_sprite` are well-ordered, so Pillow's `Image.crop` does not raise
and the checked crop equals the total `crop_sprite` value. -/
theorem crop_sprite_checked_ok (atlas : LImage) (f : AtlasSpriteFrame)
    (hw : 0 ≤ f.w) (hh : 0 ≤ f.h) :
    crop_sprite_checked atlas f = .ok (crop_sprite atlas f) := by
  cases hr : f.rotated
  · simp only [crop_sprite_checked, crop_sprite, cropPIL_checked, hr,
      Bool.false_eq_true, if_false]
    rw [if_neg (by omega), if_neg (by omega)]
  · simp only [crop_sprite_checked, crop_sprite, cropPIL_checked, hr, if_true]
    rw [if_neg (by omega), if_neg (by omega)]

/-- Counterexample to C2: a frame whose 8x8 rectangle lies partly outside
a 4x4 atlas is not rejected — extraction succeeds and produces an output
entry, the crop keeps the full requested 8x8 size, real source pixels
appear where the rectangle overlaps the atlas, and the out-of-bounds
remainder is zero-filled padding. -/
theorem extract_oob_counterexample :
    (extract_atlas atlasOob "" false (fun _ => false)
        [("big.png", frameOob)] "a.plist").map (fun r => r.count) = .ok 1
    ∧ (crop_sprite_checked atlasOob frameOob).map
        (fun i => (i.w, i.h, i.pix 0 0, i.pix 7 7)) = .ok (8, 8, 9, 0) := by
  decide

/-- C2 (amended): the extractor performs no bounds check on the
rectangle's position — with `skip_existing` unset, every frame list with
nonnegative declared sizes extracts successfully with one output entry
per frame, however far outside the texture the rectangles lie (no
`FormatError` exists in the per-entry loop; only an inverted crop box
from a negative declared size raises, with Pillow's `ValueError`), and
PIL's crop pads any source coordinate outside the texture with the zero
fill value instead of failing. -/
theorem extract_no_bounds_check (atlas : LImage) (sfx : String)
    (exist0 : String → Bool) (frames : List (String × AtlasSpriteFrame))
    (pn : String) (hsz : ∀ nf ∈ frames, 0 ≤ nf.2.w ∧ 0 ≤ nf.2.h) :
    (∃ r, extract_atlas atlas sfx false exist0 frames pn = .ok r
        ∧ r.count = frames.length)
    ∧ (∀ (img : LImage) (l t r b : Int) (x y : Nat),
        ¬(0 ≤ l + (x : Int) ∧ l + (x : Int) < (img.w : Int)
            ∧ 0 ≤ t + (y : Int) ∧ t + (y : Int) < (img.h : Int)) →
        (cropPIL img l t r b).pix x y = 0) := by
  constructor
  · have hgo : ∀ (fr : List (String × AtlasSpriteFrame)),
        (∀ nf ∈ fr, 0 ≤ nf.2.w ∧ 0 ≤ nf.2.h) →
        ∀ (idx : Nat) (written : List String),
        ∃ s, extractGo atlas sfx false exist0 frames.length fr idx written = .ok s
          ∧ s.images.length = fr.length := by
      intro fr
      induction fr with
      | nil =>
        intro _ idx written
        exact ⟨⟨[], [], []⟩, rfl, rfl⟩
      | cons hd tl ih =>
        intro hsz2 idx written
        obtain ⟨name, f⟩ := hd
        obtain ⟨hw, hh⟩ := hsz2 (name, f) (List.mem_cons_self _ _)
        obtain ⟨s, hs, hlen⟩ := ih (fun nf hm => hsz2 nf (List.mem_cons_of_mem _ hm))
          (idx + 1) (outNameOf sfx name :: written)
        refine ⟨⟨⟨outNameOf sfx name, (crop_sprite atlas f).w,
            (crop_sprite atlas f).h, "png"⟩ :: s.images,
          (outNameOf sfx name, crop_sprite atlas f) :: s.writes,
          .progress (idx + 1) frames.length (extractedMsg (outNameOf sfx name)
            (idx + 1) frames.length) :: s.events⟩, ?_, by simp [hlen]⟩
        simp only [extractGo]
        rw [if_neg (by simp), crop_sprite_checked_ok atlas f hw hh, hs]
        rfl
    obtain ⟨s, hs, hlen⟩ := hgo frames hsz 0 []
    refine ⟨⟨s.images, s.images.length, s.writes,
      s.events ++ [.completed (doneMsg s.images.length pn)]⟩, ?_, by simpa using hlen⟩
    simp only [extract_atlas]
    rw [hs]
    rfl
  · intro img l t r b x y hout
    simp only [cropPIL, readA]
    rw [if_neg hout]

/-- Witness for C2 (amended) at concrete inputs. -/
theorem extract_no_bounds_check_witness :
    (extract_atlas atlasQuad "@2x" false (fun _ => false) framesFour "b.plist").map
        (fun r => r.count) = .ok 4
    ∧ (cropPIL atlasOob 0 (-4) 8 4).pix 7 0 = 0 := by
  obtain ⟨⟨r, hr, hc⟩, hpad⟩ :=
    extract_no_bounds_check atlasQuad "@2x" (fun _ => false) framesFour "b.plist"
      (by decide)
  refine ⟨?_, hpad atlasOob 0 (-4) 8 4 7 0 (by decide)⟩
  rw [hr]
  simp only [Except.map]
  rw [hc]
  decide

/-- Loop invariant of `extractGo` with `skip_existing = true`: when
output names are distinct, nothing already written collides with the
remaining frames, and every frame declares a nonnegative size (so
Pillow's `Image.crop` cannot raise), the loop succeeds, extracts exactly
the frames whose output file does not pre-exist, writes exactly their
paths, and emits one progress event per frame with a 1-based index and
the full total. -/
theorem extractGo_skip_spec (atlas : LImage) (sfx : String)
    (exist0 : String → Bool) (total : Nat) :
    ∀ (frames : List (String × AtlasSpriteFrame)) (idx : Nat) (written : List String),
      (outNames sfx frames).Nodup →
      (∀ n ∈ written, n ∉ outNames sfx frames) →
      (∀ nf ∈ frames, 0 ≤ nf.2.w ∧ 0 ≤ nf.2.h) →
      ∃ s, extractGo atlas sfx true exist0 total frames idx written = .ok s
        ∧ s.images.map (fun i => i.path) = outNames sfx (keptFrames sfx exist0 frames)
        ∧ s.writes.map Prod.fst = outNames sfx (keptFrames sfx exist0 frames)
        ∧ s.images.length = (keptFrames sfx exist0 frames).length
        ∧ s.events.length = frames.length
        ∧ (∀ k, k < frames.length →
            isProgressEvent (s.events.getD k (.completed "")) = true
            ∧ eventCT (s.events.getD k (.completed "")) = (idx + 1 + k, total)) := by
  intro frames
  induction frames with
  | nil =>
    intro idx written hnd hinv hsz
    exact ⟨⟨[], [], []⟩, rfl, rfl, rfl, rfl, rfl, fun k hk => absurd hk (by simp)⟩
  | cons hd tl ih =>
    intro idx written hnd hinv hsz
    obtain ⟨name, f⟩ := hd
    have hnd' : (outNames sfx tl).Nodup := by
      rw [outNames, List.map_cons] at hnd
      exact hnd.of_cons
    have hhead : outNameOf sfx name ∉ outNames sfx tl := by
      rw [outNames, List.map_cons] at hnd
      exact (List.nodup_cons.mp hnd).1
    have hsz' : ∀ nf ∈ tl, 0 ≤ nf.2.w ∧ 0 ≤ nf.2.h :=
      fun nf hm => hsz nf (List.mem_cons_of_mem _ hm)
    obtain ⟨hw, hh⟩ := hsz (name, f) (List.mem_cons_self _ _)
    by_cases he : exist0 (outNameOf sfx name) = true
    · -- the head frame is skipped
      have hfil : keptFrames sfx exist0 ((name, f) :: tl) = keptFrames sfx exist0 tl := by
        simp [keptFrames, List.filter, he]
      obtain ⟨s, hs, h1, h2, h3, h4, h5⟩ := ih (idx + 1) written hnd'
        (fun n hn => fun hmem => hinv n hn (by
          rw [outNames, List.map_cons]
          exact List.mem_cons_of_mem _ hmem)) hsz'
      refine ⟨⟨s.images, s.writes,
        .progress (idx + 1) total (skipMsg (outNameOf sfx name)) :: s.events⟩,
        ?_, ?_, ?_, ?_, ?_, ?_⟩
      · simp only [extractGo]
        rw [if_pos ⟨trivial, Or.inl he⟩, hs]
        rfl
      · rw [hfil]
        exact h1
      · rw [hfil]
        exact h2
      · rw [hfil]
        exact h3
      · simp [h4]
      · intro k hk
        cases k with
        | zero =>
          exact ⟨rfl, by simp [eventCT]⟩
        | succ k2 =>
          have hk2 : k2 < tl.length := by
            simp only [List.length_cons] at hk
            omega
          obtain ⟨hp, hc⟩ := h5 k2 hk2
          refine ⟨by simpa using hp, ?_⟩
          have hgoal : eventCT (s.events.getD k2 (.completed ""))
              = (idx + 1 + (k2 + 1), total) := by
            rw [hc]
            simp only [Prod.mk.injEq, and_true]
            omega
          simpa using hgoal
    · -- the head frame is extracted
      have hnw : outNameOf sfx name ∉ written := by
        intro hmem
        exact hinv _ hmem (by
          rw [outNames, List.map_cons]
          exact List.mem_cons_self _ _)
      have hfil : keptFrames sfx exist0 ((name, f) :: tl)
          = (name, f) :: keptFrames sfx exist0 tl := by
        simp [keptFrames, List.filter, he]
      obtain ⟨s, hs, h1, h2, h3, h4, h5⟩ := ih (idx + 1) (outNameOf sfx name :: written)
        hnd' (by
          intro n hn
          rcases List.mem_cons.mp hn with hn0 | hn1
          · rw [hn0]
            exact hhead
          · intro hmem
            exact hinv n hn1 (by
              rw [outNames, List.map_cons]
              exact List.mem_cons_of_mem _ hmem)) hsz'
      refine ⟨⟨⟨outNameOf sfx name, (crop_sprite atlas f).w,
          (crop_sprite atlas f).h, "png"⟩ :: s.images,
        (outNameOf sfx name, crop_sprite atlas f) :: s.writes,
        .progress (idx + 1) total (extractedMsg (outNameOf sfx name) (idx + 1) total)
          :: s.events⟩, ?_, ?_, ?_, ?_, ?_, ?_⟩
      · simp only [extractGo]
        rw [if_neg (fun hcond => hcond.2.elim (fun hx => absurd hx he) hnw),
          crop_sprite_checked_ok atlas f hw hh, hs]
        rfl
      · rw [hfil]
        simpa [outNames] using h1
      · rw [hfil]
        simpa [outNames] using h2
      · rw [hfil]
        simp [h3]
      · simp [h4]
      · intro k hk
        cases k with
        | zero =>
          exact ⟨rfl, by simp [eventCT]⟩
        | succ k2 =>
          have hk2 : k2 < tl.length := by
            simp only [List.length_cons] at hk
            omega
          obtain ⟨hp, hc⟩ := h5 k2 hk2
          refine ⟨by simpa using hp, ?_⟩
          have hgoal : eventCT (s.events.getD k2 (.completed ""))
              = (idx + 1 + (k2 + 1), total) := by
            rw [hc]
            simp only [Prod.mk.injEq, and_true]
            omega
          simpa using hgoal

/-- C9: with `skip_existing` set, distinct computed output names and
nonnegative declared sizes, the run succeeds and its result consists of
exactly the frames whose output does not pre-exist (so one pre-existing
file among four entries gives count 3), a pre-existing path is never
written to, and every frame — skipped ones included — still gets a
progress event whose denominator is the full frame count and whose
current index is 1-based. -/
theorem extract_skip_existing_spec (atlas : LImage) (sfx : String)
    (exist0 : String → Bool) (frames : List (String × AtlasSpriteFrame))
    (pn : String) (hnd : (outNames sfx frames).Nodup)
    (hsz : ∀ nf ∈ frames, 0 ≤ nf.2.w ∧ 0 ≤ nf.2.h) :
    ∃ r, extract_atlas atlas sfx true exist0 frames pn = .ok r
      ∧ r.count = (keptFrames sfx exist0 frames).length
      ∧ r.images.map (fun i => i.path) = outNames sfx (keptFrames sfx exist0 frames)
      ∧ r.writes.map Prod.fst = outNames sfx (keptFrames sfx exist0 frames)
      ∧ (∀ p, exist0 p = true → p ∉ r.writes.map Prod.fst)
      ∧ r.events.length = frames.length + 1
      ∧ (∀ k, k < frames.length →
          isProgressEvent (r.events.getD k (.completed "")) = true
          ∧ eventCT (r.events.getD k (.completed "")) = (k + 1, frames.length)) := by
  obtain ⟨s, hs, h1, h2, h3, h4, h5⟩ :=
    extractGo_skip_spec atlas sfx exist0 frames.length frames 0 [] hnd (by simp) hsz
  refine ⟨⟨s.images, s.images.length, s.writes,
    s.events ++ [.completed (doneMsg s.images.length pn)]⟩, ?_, h3, h1, h2, ?_, ?_, ?_⟩
  · simp only [extract_atlas]
    rw [hs]
    rfl
  · intro p hp hmem
    have hnot : p ∉ s.writes.map Prod.fst := by
      intro hmem2
      rw [h2] at hmem2
      simp only [outNames, keptFrames, List.mem_map, List.mem_filter] at hmem2
      obtain ⟨q, ⟨_, hq⟩, hqp⟩ := hmem2
      rw [hqp] at hq
      rw [hp] at hq
      cases hq
    exact hnot hmem
  · simp [h4]
  · intro k hk
    have hk2 : k < s.events.length := by omega
    have hrw : (s.events ++ [AtlasEvent.completed (doneMsg s.images.length pn)]).getD
          k (AtlasEvent.completed "")
        = s.events.getD k (AtlasEvent.completed "") :=
      List.getD_append _ _ _ _ hk2
    obtain ⟨hp, hc⟩ := h5 k hk
    refine ⟨?_, ?_⟩
    · show isProgressEvent ((s.events ++ [AtlasEvent.completed
        (doneMsg s.images.length pn)]).getD k (AtlasEvent.completed "")) = true
      rw [hrw]
      exact hp
    · show eventCT ((s.events ++ [AtlasEvent.completed
        (doneMsg s.images.length pn)]).getD k (AtlasEvent.completed ""))
        = (k + 1, frames.length)
      rw [hrw, hc]
      simp only [Prod.mk.injEq, and_true]
      omega

/-- Witness for C9: four quadrant frames with `green.png` pre-existing
give a successful run with count 3, no write to `green.png`, five
events, and the second (skipped) frame still gets progress event
`(2, 4)`. -/
theorem extract_skip_existing_spec_witness :
    (extract_atlas atlasQuad "" true existGreen framesFour "c.plist").map
        (fun r => (r.count, r.events.length,
          eventCT (r.events.getD 1 (AtlasEvent.completed "")),
          decide ("green.png" ∈ r.writes.map Prod.fst)))
      = .ok (3, 5, (2, 4), false) := by
  obtain ⟨r, hr, h1, h2, h3, h4, h5, h6⟩ :=
    extract_skip_existing_spec atlasQuad "" existGreen framesFour "c.plist"
      (by decide) (by decide)
  rw [hr]
  simp only [Except.map]
  have hc : r.count = 3 := h1.trans (by decide)
  have he : r.events.length = 5 := by
    rw [h5]
    decide
  have hev : eventCT (r.events.getD 1 (AtlasEvent.completed "")) = (2, 4) :=
    ((h6 1 (by decide)).2).trans (by decide)
  have hw : decide ("green.png" ∈ r.writes.map Prod.fst) = false :=
    decide_eq_false (h4 "green.png" (by decide))
  rw [hc, he, hev, hw]
